import Mathlib

/-!
# MLFQ-FreeRTOS: shallow embedding and verification

A shallow embedding of the MLFQ scheduler (`src/src/scheduler.c`) and the
tick profiler (`src/src/tick_profiler.c`) of the MLFQ-FreeRTOS repository,
together with proofs of the specification's claims about them.

Modelling conventions:
* `TaskHandle_t` is a `Nat`; the C `NULL` pointer is `0`.
* `MLFQ_QueueLevel_t` values are C `int`s, modelled as `Nat`
  (`HIGH = 0`, `MEDIUM = 1`, `LOW = 2`); the code casts arbitrary
  integers into the enum, so the model must not restrict the range.
* `uint32_t` arithmetic is `Nat` with an explicit `% U32` where the C
  code can overflow or truncate.
* The two fixed global arrays (`g_taskTable` in each file) are `List`s
  of length `TICK_PROFILER_MAX_TASKS`, initialised by `initScheduler`.
* Kernel side effects (`vTaskPrioritySet`, the expired queue, the
  task notification, the LED) are explicit fields of `SysState`.
-/

namespace MLFQ

/-- The modulus of C `uint32_t` arithmetic. -/
def U32 : Nat := 2 ^ 32

/-! ## Build-time constants (scheduler.h, tick_profiler.h) -/

/-- `TICK_PROFILER_MAX_TASKS` (tick_profiler.h): size of both tables. -/
def TICK_PROFILER_MAX_TASKS : Nat := 16

/-- `TICK_PROFILER_EXPIRED_QUEUE_LENGTH = TICK_PROFILER_MAX_TASKS * 2`. -/
def TICK_PROFILER_EXPIRED_QUEUE_LENGTH : Nat := TICK_PROFILER_MAX_TASKS * 2

/-- `MLFQ_TOP_PRIORITY_NUMBER` (scheduler.h). -/
def MLFQ_TOP_PRIORITY_NUMBER : Nat := 5

/-- `MLFQ_TIME_SLICE_HIGH` (scheduler.h). -/
def MLFQ_TIME_SLICE_HIGH : Nat := 20

/-- `MLFQ_TIME_SLICE_MEDIUM` (scheduler.h). -/
def MLFQ_TIME_SLICE_MEDIUM : Nat := 50

/-- `MLFQ_TIME_SLICE_LOW` (scheduler.h). -/
def MLFQ_TIME_SLICE_LOW : Nat := 100

/-- `MLFQ_QUEUE_HIGH` in the `MLFQ_QueueLevel_t` enum. -/
def MLFQ_QUEUE_HIGH : Nat := 0

/-- `MLFQ_QUEUE_MEDIUM` in the `MLFQ_QueueLevel_t` enum. -/
def MLFQ_QUEUE_MEDIUM : Nat := 1

/-- `MLFQ_QUEUE_LOW` in the `MLFQ_QueueLevel_t` enum. -/
def MLFQ_QUEUE_LOW : Nat := 2

/-- `MLFQ_TO_RTOS_LEVEL_SETTER(level) = (MLFQ_TOP_PRIORITY_NUMBER - level)`
in unsigned C arithmetic (scheduler.h line 78). -/
def MLFQ_TO_RTOS_LEVEL_SETTER (level : Nat) : Nat :=
  (MLFQ_TOP_PRIORITY_NUMBER + (U32 - level % U32)) % U32

/-! ## Data model -/

/-- `TickProfilerTaskInfo_t` (tick_profiler.h): one accountant record. -/
structure TickProfilerTaskInfo where
  task : Nat
  run_ticks : Nat
  quantum_ticks : Nat
deriving Repr, DecidableEq

/-- The all-zero accountant record (the `memset` pattern). -/
def emptyInfo : TickProfilerTaskInfo := ⟨0, 0, 0⟩

/-- `MLFQ_TCB_t` (scheduler.h): one supervisor record. -/
structure MLFQ_TCB where
  task_handle : Nat
  task_level : Nat
  arrival_tick : Nat
deriving Repr, DecidableEq

/-- The cleared supervisor record written by `initScheduler`. -/
def emptyTCB : MLFQ_TCB := ⟨0, MLFQ_QUEUE_HIGH, 0⟩

/-- `MLFQ_Task_Profiler_t` (scheduler.h): the snapshot output structure. -/
structure MLFQ_Task_Profiler where
  task : Nat
  run_ticks : Nat
  quantum_ticks : Nat
  task_level : Nat
  arrival_tick : Nat
deriving Repr, DecidableEq

/-! ## Tick profiler: task-context operations (tick_profiler.c) -/

/-- `findTaskIndex` (tick_profiler.c lines 44-56): index of a task in
the profiler table, `none` for `NULL` or absent (the C `-1`). -/
def findTaskIndex (tbl : List TickProfilerTaskInfo) (task : Nat) : Option Nat :=
  if task = 0 then none
  else tbl.findIdx? (fun r => r.task == task)

/-- `findEmptySlot` (tick_profiler.c lines 62-70): first free slot. -/
def findEmptySlot (tbl : List TickProfilerTaskInfo) : Option Nat :=
  tbl.findIdx? (fun r => r.task == 0)

/-- Which of `setupTaskStats`'s distinct return branches fired.  The C
function returns `bool`; its three `return false` sites are the `NULL`
check (line 112), the duplicate check (line 119) and the full-table
check (line 126), matching the spec's `invalid | already_present |
table_full` taxonomy. -/
inductive RegResult where
  | ok
  | invalid
  | already_present
  | table_full
deriving Repr, DecidableEq

/-- `setupTaskStats` (tick_profiler.c lines 110-139): register a task
with the profiler, zeroing its counters. -/
def setupTaskStats (tbl : List TickProfilerTaskInfo) (task : Nat) :
    RegResult × List TickProfilerTaskInfo :=
  if task = 0 then (.invalid, tbl)
  else if (findTaskIndex tbl task).isSome then (.already_present, tbl)
  else
    match findEmptySlot tbl with
    | none => (.table_full, tbl)
    | some slot => (.ok, tbl.set slot ⟨task, 0, 0⟩)

/-- Which of `setTaskQuantum`'s distinct return branches fired: the
argument check (line 146) versus the lookup failure (line 153). -/
inductive QuantumResult where
  | ok
  | invalid
  | not_found
deriving Repr, DecidableEq

/-- `setTaskQuantum` (tick_profiler.c lines 144-163).  The `quantumTicks`
argument is a `uint32_t`, hence the `% U32` truncation at the boundary. -/
def setTaskQuantum (tbl : List TickProfilerTaskInfo) (task quantumTicks : Nat) :
    QuantumResult × List TickProfilerTaskInfo :=
  if task = 0 ∨ quantumTicks % U32 = 0 then (.invalid, tbl)
  else
    match findTaskIndex tbl task with
    | none => (.not_found, tbl)
    | some idx =>
        (.ok, tbl.set idx { tbl.getD idx emptyInfo with quantum_ticks := quantumTicks % U32 })

/-- `getTaskRuntime` (tick_profiler.c lines 169-187). -/
def getTaskRuntime (tbl : List TickProfilerTaskInfo) (task : Nat) : Nat :=
  if task = 0 then 0
  else
    match findTaskIndex tbl task with
    | none => 0
    | some idx => (tbl.getD idx emptyInfo).run_ticks

/-- `resetTaskRuntime` (tick_profiler.c lines 192-211). -/
def resetTaskRuntime (tbl : List TickProfilerTaskInfo) (task : Nat) :
    Bool × List TickProfilerTaskInfo :=
  if task = 0 then (false, tbl)
  else
    match findTaskIndex tbl task with
    | none => (false, tbl)
    | some idx => (true, tbl.set idx { tbl.getD idx emptyInfo with run_ticks := 0 })

/-! ## System state -/

/-- The global state touched by the two modules: both tables, the expiry
queue (`none` models a `NULL` `QueueHandle_t`), the registered scheduler
handle, and the kernel/driver side-effect channels. -/
structure SysState where
  supTable : List MLFQ_TCB
  accTable : List TickProfilerTaskInfo
  expiredQueue : Option (List Nat)
  schedulerHandle : Nat
  kernelPrio : Nat → Nat
  led : Nat
  notifications : Nat

attribute [ext] SysState

/-- `vTaskPrioritySet` modelled on the kernel-priority map. -/
def vTaskPrioritySet (p : Nat → Nat) (task prio : Nat) : Nat → Nat :=
  fun h => if h = task then prio else p h

/-- `xQueueSendFromISR` on the expiry queue: append, dropping when the
queue already holds `TICK_PROFILER_EXPIRED_QUEUE_LENGTH` items. -/
def xQueueSendFromISR (q : List Nat) (h : Nat) : List Nat :=
  if q.length < TICK_PROFILER_EXPIRED_QUEUE_LENGTH then q ++ [h] else q

/-- `tickProfilerInit` (tick_profiler.c lines 81-103): clear the
accountant table and scheduler handle, create the expiry queue. -/
def tickProfilerInit (s : SysState) : SysState :=
  { s with
    accTable := List.replicate TICK_PROFILER_MAX_TASKS emptyInfo
    schedulerHandle := 0
    expiredQueue := some [] }

/-- `vApplicationTickHook` (tick_profiler.c lines 246-289) with the
currently running task handle made explicit
(`xTaskGetCurrentTaskHandle`). -/
def vApplicationTickHook (s : SysState) (current : Nat) : SysState :=
  if current = 0 then s
  else
    match s.accTable.findIdx? (fun r => r.task == current) with
    | none => s
    | some i =>
        let r0 := s.accTable.getD i emptyInfo
        let newRun := (r0.run_ticks + 1) % U32
        let acc' := s.accTable.set i { r0 with run_ticks := newRun }
        if r0.quantum_ticks ≠ 0 ∧ newRun ≥ r0.quantum_ticks then
          let q' : Option (List Nat) :=
            match s.expiredQueue with
            | none => none
            | some q => some (xQueueSendFromISR q current)
          let n' := if s.schedulerHandle ≠ 0 then s.notifications + 1 else s.notifications
          { s with accTable := acc', expiredQueue := q', notifications := n' }
        else
          { s with accTable := acc' }

/-! ## Scheduler operations (scheduler.c) -/

/-- `getQuantumForLevel` (scheduler.c lines 33-41). -/
def getQuantumForLevel (level : Nat) : Nat :=
  if level = MLFQ_QUEUE_HIGH then MLFQ_TIME_SLICE_HIGH
  else if level = MLFQ_QUEUE_MEDIUM then MLFQ_TIME_SLICE_MEDIUM
  else if level = MLFQ_QUEUE_LOW then MLFQ_TIME_SLICE_LOW
  else MLFQ_TIME_SLICE_LOW

/-- `updateTaskPriority` (scheduler.c lines 54-74): find the task's
supervisor slot (first match, then `return`), store the new level, set
the kernel priority, install the new quantum, reset the runtime, and
show the level on the LED. -/
def updateTaskPriority (s : SysState) (task newLevel : Nat) : SysState :=
  match s.supTable.findIdx? (fun e => e.task_handle == task) with
  | none => s
  | some i =>
      let s1 := { s with
        supTable := s.supTable.set i
          { s.supTable.getD i emptyTCB with task_level := newLevel } }
      let s2 := { s1 with
        kernelPrio := vTaskPrioritySet s1.kernelPrio task (MLFQ_TO_RTOS_LEVEL_SETTER newLevel) }
      let s3 := { s2 with accTable := (setTaskQuantum s2.accTable task (getQuantumForLevel newLevel)).2 }
      let s4 := { s3 with accTable := (resetTaskRuntime s3.accTable task).2 }
      { s4 with led := newLevel }

/-- `initScheduler` (scheduler.c lines 81-93). -/
def initScheduler (s : SysState) : SysState :=
  let s1 := tickProfilerInit s
  { s1 with supTable := List.replicate TICK_PROFILER_MAX_TASKS emptyTCB }

/-- `registerTask` (scheduler.c lines 101-129) with the current tick
count (`xTaskGetTickCount`) made explicit.  The loop takes the first
`NULL` supervisor slot and `break`s whether or not `setupTaskStats`
succeeds. -/
def registerTask (s : SysState) (taskHandle now : Nat) : SysState :=
  match s.supTable.findIdx? (fun e => e.task_handle == 0) with
  | none => s
  | some i =>
      match setupTaskStats s.accTable taskHandle with
      | (RegResult.ok, acc1) =>
          let s1 := { s with
            accTable := acc1
            supTable := s.supTable.set i ⟨taskHandle, MLFQ_QUEUE_HIGH, now % U32⟩ }
          let s2 := { s1 with
            kernelPrio := vTaskPrioritySet s1.kernelPrio taskHandle
              (MLFQ_TO_RTOS_LEVEL_SETTER MLFQ_QUEUE_HIGH) }
          { s2 with accTable := (setTaskQuantum s2.accTable taskHandle MLFQ_TIME_SLICE_HIGH).2 }
      | (_, _) => s

/-- `checkForDemotion` (scheduler.c lines 136-151).  The
`currentLevel < LOW` branch writes
`MLFQ_TO_RTOS_LEVEL_SETTER(currentLevel + 1)` — and the macro body
(scheduler.h line 78) leaves its parameter unparenthesized, so the
preprocessor expands this call to `(5U - currentLevel + 1)`, which C
parses as `(5U - currentLevel) + 1`.  The expansion is modelled
textually; all other call sites of the macro pass a lone
identifier or constant, where the function model coincides with the
expansion. -/
def checkForDemotion (s : SysState) (table_index : Nat) : SysState :=
  let e := s.supTable.getD table_index emptyTCB
  let task := e.task_handle
  let currentLevel := e.task_level
  if currentLevel < MLFQ_QUEUE_LOW then
    updateTaskPriority s task ((MLFQ_TO_RTOS_LEVEL_SETTER currentLevel + 1) % U32)
  else
    updateTaskPriority s task MLFQ_QUEUE_LOW

/-- One iteration of the `performGlobalBoost` loop body
(scheduler.c lines 160-167). -/
def boostStep (st : SysState) (i : Nat) : SysState :=
  if (st.supTable.getD i emptyTCB).task_handle ≠ 0 then
    updateTaskPriority st (st.supTable.getD i emptyTCB).task_handle MLFQ_QUEUE_HIGH
  else st

/-- `performGlobalBoost` (scheduler.c lines 158-168): for every index
holding a non-`NULL` handle (read from the evolving table), re-apply
`HIGH`. -/
def performGlobalBoost (s : SysState) : SysState :=
  (List.range TICK_PROFILER_MAX_TASKS).foldl boostStep s

/-- One iteration of the `promoteInteractiveTask` loop body
(scheduler.c lines 176-188). -/
def promoteStep (task : Nat) (st : SysState) (i : Nat) : SysState :=
  if (st.supTable.getD i emptyTCB).task_handle = task then
    if (st.supTable.getD i emptyTCB).task_level ≠ MLFQ_QUEUE_HIGH then
      updateTaskPriority st (st.supTable.getD i emptyTCB).task_handle
        ((st.supTable.getD i emptyTCB).task_level - 1)
    else st
  else st

/-- `promoteInteractiveTask` (scheduler.c lines 174-189): the loop has
no `break`, so it scans all indices. -/
def promoteInteractiveTask (s : SysState) (task : Nat) : SysState :=
  (List.range TICK_PROFILER_MAX_TASKS).foldl (promoteStep task) s

/-- `schedulerGetTaskStats` (scheduler.c lines 242-262); `none` models
the `false` return. -/
def schedulerGetTaskStats (s : SysState) (index : Nat) : Option MLFQ_Task_Profiler :=
  if TICK_PROFILER_MAX_TASKS ≤ index ∨ (s.supTable.getD index emptyTCB).task_handle = 0 then
    none
  else
    let e := s.supTable.getD index emptyTCB
    some ⟨e.task_handle, getTaskRuntime s.accTable e.task_handle,
          getQuantumForLevel e.task_level, e.task_level, e.arrival_tick⟩

/-- One step of `schedulerTask`'s drain loop (scheduler.c lines
212-222) for a single handle received from the expiry queue: find its
supervisor index (first match, then `break`) and demote it. -/
def drainExpiredHandle (s : SysState) (h : Nat) : SysState :=
  match s.supTable.findIdx? (fun e => e.task_handle == h) with
  | none => s
  | some i => checkForDemotion s i

/-! ## Derived views, the operation language and reachability -/

/-- The supervisor table's column of task handles. -/
def supHandles (s : SysState) : List Nat := s.supTable.map MLFQ_TCB.task_handle

/-- The accountant table's column of task handles. -/
def accTasks (s : SysState) : List Nat := s.accTable.map TickProfilerTaskInfo.task

/-- No two occupied slots share a handle: any value repeated in the
column is the `NULL` sentinel `0`. -/
def DistinctOcc (hs : List Nat) : Prop :=
  List.Pairwise (fun a b => a = b → a = 0) hs

instance (hs : List Nat) : Decidable (DistinctOcc hs) :=
  inferInstanceAs (Decidable (List.Pairwise (fun a b => a = b → a = 0) hs))

/-- The table invariant maintained by the scheduler: both handle
columns are duplicate-free on occupied slots, and every occupied
supervisor handle is also registered with the accountant. -/
def Inv (s : SysState) : Prop :=
  DistinctOcc (supHandles s) ∧ DistinctOcc (accTasks s) ∧
    ∀ h ∈ supHandles s, h ≠ 0 → h ∈ accTasks s

/-- The task-context operations of the two modules. -/
inductive Op where
  | register (t now : Nat)
  | setQuantum (t q : Nat)
  | setLevel (t l : Nat)
  | checkDemotion (i : Nat)
  | globalBoost
  | promoteInteractive (t : Nat)
  | resetRuntime (t : Nat)

/-- Interpretation of one operation on the system state. -/
def applyOp (s : SysState) : Op → SysState
  | .register t now => registerTask s t now
  | .setQuantum t q => { s with accTable := (setTaskQuantum s.accTable t q).2 }
  | .setLevel t l => updateTaskPriority s t l
  | .checkDemotion i => checkForDemotion s i
  | .globalBoost => performGlobalBoost s
  | .promoteInteractive t => promoteInteractiveTask s t
  | .resetRuntime t => { s with accTable := (resetTaskRuntime s.accTable t).2 }

/-- States reachable from `initScheduler` by task-context operations. -/
inductive Reachable : SysState → Prop where
  | init (s0 : SysState) : Reachable (initScheduler s0)
  | step {s : SysState} (op : Op) : Reachable s → Reachable (applyOp s op)

/-! ## Concrete states used by witnesses -/

/-- An arbitrary pre-`main` state. -/
def st0 : SysState :=
  { supTable := []
    accTable := []
    expiredQueue := none
    schedulerHandle := 0
    kernelPrio := fun _ => 0
    led := 0
    notifications := 0 }

/-- Initialise, then register task handle `7` at tick `42`. -/
def demoState : SysState := registerTask (initScheduler st0) 7 42

/-- `demoState` with task `7` moved to the `LOW` queue. -/
def lowState : SysState := updateTaskPriority demoState 7 MLFQ_QUEUE_LOW

/-- `demoState` with task `7` moved to the `MEDIUM` queue. -/
def medState : SysState := updateTaskPriority demoState 7 MLFQ_QUEUE_MEDIUM

/-- `demoState` on the verge of quantum expiry, with a supervisor
handle registered for notification. -/
def expireState : SysState :=
  { demoState with
    accTable := demoState.accTable.set 0 ⟨7, 19, 20⟩
    schedulerHandle := 9 }

/-- An accountant table with every slot occupied. -/
def fullTbl : List TickProfilerTaskInfo :=
  (List.range TICK_PROFILER_MAX_TASKS).map (fun i => ⟨i + 1, 0, 0⟩)

/-- Loop invariant of the `performGlobalBoost` fold: after the first
`K` indices have been processed, slots below `K` that were occupied
hold level `HIGH` with a zero runtime, and everything else — handles,
accountant membership, later slots, empty slots — is as in `s`. -/
def BoostInv (s u : SysState) (K : Nat) : Prop :=
  u.supTable.length = s.supTable.length ∧
  supHandles u = supHandles s ∧
  accTasks u = accTasks s ∧
  (∀ j, K ≤ j → u.supTable.getD j emptyTCB = s.supTable.getD j emptyTCB) ∧
  (∀ j, (s.supTable.getD j emptyTCB).task_handle = 0 →
      u.supTable.getD j emptyTCB = s.supTable.getD j emptyTCB) ∧
  (∀ j, j < K → (s.supTable.getD j emptyTCB).task_handle ≠ 0 →
      (u.supTable.getD j emptyTCB).task_handle =
        (s.supTable.getD j emptyTCB).task_handle ∧
      (u.supTable.getD j emptyTCB).task_level = MLFQ_QUEUE_HIGH ∧
      getTaskRuntime u.accTable (s.supTable.getD j emptyTCB).task_handle = 0)

/-! ## Generic list lemmas -/

theorem getD_eq_getElem {α : Type} (l : List α) (i : Nat) (d : α) (h : i < l.length) :
    l.getD i d = l[i] := by
  simp [List.getD_eq_getElem?_getD, List.getElem?_eq_getElem h]

theorem getD_set_self {α : Type} (l : List α) (i : Nat) (d v : α) (h : i < l.length) :
    (l.set i v).getD i d = v := by
  simp [List.getD_eq_getElem?_getD, List.getElem?_set_self h]

theorem getD_set_ne {α : Type} (l : List α) {i j : Nat} (d v : α) (h : i ≠ j) :
    (l.set i v).getD j d = l.getD j d := by
  simp [List.getD_eq_getElem?_getD, List.getElem?_set_ne h]

theorem set_getD_self {α : Type} (l : List α) (i : Nat) (d : α) :
    l.set i (l.getD i d) = l := by
  rcases Nat.lt_or_ge i l.length with h | h
  · apply List.ext_getElem?
    intro n
    rw [List.getElem?_set]
    by_cases hn : i = n
    · subst hn
      simp [h, getD_eq_getElem l i d h, List.getElem?_eq_getElem h]
    · simp [hn]
  · exact List.set_eq_of_length_le h

theorem findIdx?_some_elim {α : Type} {l : List α} {p : α → Bool} {i : Nat}
    (h : l.findIdx? p = some i) (d : α) :
    i < l.length ∧ p (l.getD i d) = true ∧ ∀ j, j < i → p (l.getD j d) = false := by
  rw [List.findIdx?_eq_some_iff_getElem] at h
  obtain ⟨hl, hp, hmin⟩ := h
  refine ⟨hl, ?_, ?_⟩
  · rwa [getD_eq_getElem l i d hl]
  · intro j hj
    have hjl : j < l.length := Nat.lt_trans hj hl
    have := hmin j hj
    rw [getD_eq_getElem l j d hjl]
    simpa using this

theorem findIdx?_eq_some_intro {α : Type} {l : List α} {p : α → Bool} {i : Nat} (d : α)
    (hl : i < l.length) (hp : p (l.getD i d) = true)
    (hmin : ∀ j, j < i → p (l.getD j d) = false) :
    l.findIdx? p = some i := by
  rw [List.findIdx?_eq_some_iff_getElem]
  refine ⟨hl, ?_, ?_⟩
  · rwa [getD_eq_getElem l i d hl] at hp
  · intro j hj
    have hjl : j < l.length := Nat.lt_trans hj hl
    have := hmin j hj
    rw [getD_eq_getElem l j d hjl] at this
    simp [this]

theorem map_set_field {α β : Type} (l : List α) (f : α → β) (i : Nat) (v d : α)
    (hv : f v = f (l.getD i d)) : (l.set i v).map f = l.map f := by
  rcases Nat.lt_or_ge i l.length with h | h
  · rw [List.map_set, hv, getD_eq_getElem l i d h]
    have hfl : f l[i] = (l.map f).getD i (f d) := by
      rw [getD_eq_getElem (l.map f) i (f d) (by simpa using h), List.getElem_map]
    rw [hfl, set_getD_self]
  · rw [List.set_eq_of_length_le h]

/-! ## Accountant lookup lemmas -/

theorem findTaskIndex_some {tbl : List TickProfilerTaskInfo} {t idx : Nat}
    (h : findTaskIndex tbl t = some idx) :
    t ≠ 0 ∧ idx < tbl.length ∧ (tbl.getD idx emptyInfo).task = t ∧
      ∀ j, j < idx → (tbl.getD j emptyInfo).task ≠ t := by
  unfold findTaskIndex at h
  split at h
  · exact absurd h (by simp)
  · rename_i ht
    obtain ⟨hl, hp, hmin⟩ := findIdx?_some_elim h emptyInfo
    refine ⟨ht, hl, by simpa using hp, fun j hj => by simpa using hmin j hj⟩

theorem findTaskIndex_eq_none {tbl : List TickProfilerTaskInfo} {t : Nat} (ht : t ≠ 0)
    (h : ∀ r ∈ tbl, r.task ≠ t) : findTaskIndex tbl t = none := by
  unfold findTaskIndex
  rw [if_neg ht, List.findIdx?_eq_none_iff]
  intro r hr
  simpa using h r hr

theorem findTaskIndex_none_elim {tbl : List TickProfilerTaskInfo} {t : Nat}
    (h : findTaskIndex tbl t = none) (ht : t ≠ 0) : ∀ r ∈ tbl, r.task ≠ t := by
  unfold findTaskIndex at h
  rw [if_neg ht, List.findIdx?_eq_none_iff] at h
  intro r hr
  simpa using h r hr

theorem findTaskIndex_congr {tbl1 tbl2 : List TickProfilerTaskInfo}
    (h : tbl1.map TickProfilerTaskInfo.task = tbl2.map TickProfilerTaskInfo.task)
    (t : Nat) : findTaskIndex tbl1 t = findTaskIndex tbl2 t := by
  unfold findTaskIndex
  by_cases ht : t = 0
  · simp [ht]
  · rw [if_neg ht, if_neg ht]
    have h1 : (tbl1.map TickProfilerTaskInfo.task).findIdx? (fun x => x == t) =
        (tbl2.map TickProfilerTaskInfo.task).findIdx? (fun x => x == t) := by rw [h]
    simpa [List.findIdx?_map, Function.comp] using h1

theorem setTaskQuantum_map_task (tbl : List TickProfilerTaskInfo) (t q : Nat) :
    ((setTaskQuantum tbl t q).2).map TickProfilerTaskInfo.task =
      tbl.map TickProfilerTaskInfo.task := by
  unfold setTaskQuantum
  split
  · rfl
  · split
    · rfl
    · exact map_set_field _ _ _ _ emptyInfo rfl

theorem resetTaskRuntime_map_task (tbl : List TickProfilerTaskInfo) (t : Nat) :
    ((resetTaskRuntime tbl t).2).map TickProfilerTaskInfo.task =
      tbl.map TickProfilerTaskInfo.task := by
  unfold resetTaskRuntime
  split
  · rfl
  · split
    · rfl
    · exact map_set_field _ _ _ _ emptyInfo rfl

/-! Branch-shape lemmas for the accountant setters. -/

theorem setTaskQuantum_guard {tbl : List TickProfilerTaskInfo} {t q : Nat}
    (h : t = 0 ∨ q % U32 = 0) :
    setTaskQuantum tbl t q = (.invalid, tbl) := by
  unfold setTaskQuantum
  rw [if_pos h]

theorem setTaskQuantum_notfound {tbl : List TickProfilerTaskInfo} {t q : Nat}
    (hg : ¬(t = 0 ∨ q % U32 = 0)) (hj : findTaskIndex tbl t = none) :
    setTaskQuantum tbl t q = (.not_found, tbl) := by
  unfold setTaskQuantum
  rw [if_neg hg, hj]

theorem setTaskQuantum_ok {tbl : List TickProfilerTaskInfo} {t q j : Nat}
    (hg : ¬(t = 0 ∨ q % U32 = 0)) (hj : findTaskIndex tbl t = some j) :
    setTaskQuantum tbl t q =
      (.ok, tbl.set j { tbl.getD j emptyInfo with quantum_ticks := q % U32 }) := by
  unfold setTaskQuantum
  rw [if_neg hg, hj]

theorem resetTaskRuntime_null {tbl : List TickProfilerTaskInfo} :
    resetTaskRuntime tbl 0 = (false, tbl) := by
  unfold resetTaskRuntime
  rw [if_pos rfl]

theorem resetTaskRuntime_notfound {tbl : List TickProfilerTaskInfo} {t : Nat}
    (ht : t ≠ 0) (hj : findTaskIndex tbl t = none) :
    resetTaskRuntime tbl t = (false, tbl) := by
  unfold resetTaskRuntime
  rw [if_neg ht, hj]

theorem resetTaskRuntime_found {tbl : List TickProfilerTaskInfo} {t j : Nat}
    (ht : t ≠ 0) (hj : findTaskIndex tbl t = some j) :
    resetTaskRuntime tbl t =
      (true, tbl.set j { tbl.getD j emptyInfo with run_ticks := 0 }) := by
  unfold resetTaskRuntime
  rw [if_neg ht, hj]

/-- Installing a quantum and then resetting the runtime rewrites the
task's single accountant record. -/
theorem quantumReset_eq {tbl : List TickProfilerTaskInfo} {t j : Nat} (q : Nat)
    (hq : q % U32 ≠ 0) (hj : findTaskIndex tbl t = some j) :
    (resetTaskRuntime ((setTaskQuantum tbl t q).2) t).2 =
      tbl.set j { tbl.getD j emptyInfo with run_ticks := 0, quantum_ticks := q % U32 } := by
  obtain ⟨ht, hl, htask, -⟩ := findTaskIndex_some hj
  have hguard : ¬(t = 0 ∨ q % U32 = 0) := by
    push_neg
    exact ⟨ht, hq⟩
  have hmap : (tbl.set j { tbl.getD j emptyInfo with quantum_ticks := q % U32 }).map
      TickProfilerTaskInfo.task = tbl.map TickProfilerTaskInfo.task :=
    map_set_field _ _ _ _ emptyInfo rfl
  have hidx : findTaskIndex
      (tbl.set j { tbl.getD j emptyInfo with quantum_ticks := q % U32 }) t = some j := by
    rw [findTaskIndex_congr hmap]
    exact hj
  simp only [setTaskQuantum_ok hguard hj, resetTaskRuntime_found ht hidx]
  rw [getD_set_self _ _ _ _ hl, List.set_set]

/-- The quantum-then-reset composition is the identity when the task
has no accountant record. -/
theorem quantumReset_none {tbl : List TickProfilerTaskInfo} {t : Nat} (q : Nat)
    (hj : findTaskIndex tbl t = none) :
    (resetTaskRuntime ((setTaskQuantum tbl t q).2) t).2 = tbl := by
  by_cases ht : t = 0
  · subst ht
    simp only [setTaskQuantum_guard (Or.inl rfl), resetTaskRuntime_null]
  · by_cases hq : q % U32 = 0
    · simp only [setTaskQuantum_guard (Or.inr hq), resetTaskRuntime_notfound ht hj]
    · simp only [setTaskQuantum_notfound (by push_neg; exact ⟨ht, hq⟩) hj,
        resetTaskRuntime_notfound ht hj]

/-- `updateTaskPriority` is the identity when the task is not in the
supervisor table. -/
theorem updateTaskPriority_none {s : SysState} {t L : Nat}
    (h : s.supTable.findIdx? (fun e => e.task_handle == t) = none) :
    updateTaskPriority s t L = s := by
  unfold updateTaskPriority
  rw [h]

/-- Explicit shape of `updateTaskPriority` when the task's first
supervisor slot is `i`. -/
theorem updateTaskPriority_some {s : SysState} {t L i : Nat}
    (h : s.supTable.findIdx? (fun e => e.task_handle == t) = some i) :
    updateTaskPriority s t L =
      { supTable := s.supTable.set i { s.supTable.getD i emptyTCB with task_level := L }
        accTable := (resetTaskRuntime ((setTaskQuantum s.accTable t (getQuantumForLevel L)).2) t).2
        expiredQueue := s.expiredQueue
        schedulerHandle := s.schedulerHandle
        kernelPrio := vTaskPrioritySet s.kernelPrio t (MLFQ_TO_RTOS_LEVEL_SETTER L)
        led := L
        notifications := s.notifications } := by
  unfold updateTaskPriority
  rw [h]

theorem updateTaskPriority_supHandles (s : SysState) (t L : Nat) :
    supHandles (updateTaskPriority s t L) = supHandles s := by
  cases h : s.supTable.findIdx? (fun e => e.task_handle == t) with
  | none => rw [updateTaskPriority_none h]
  | some i =>
      rw [updateTaskPriority_some h]
      unfold supHandles
      exact map_set_field _ _ _ _ emptyTCB rfl

theorem updateTaskPriority_accTasks (s : SysState) (t L : Nat) :
    accTasks (updateTaskPriority s t L) = accTasks s := by
  cases h : s.supTable.findIdx? (fun e => e.task_handle == t) with
  | none => rw [updateTaskPriority_none h]
  | some i =>
      rw [updateTaskPriority_some h]
      unfold accTasks
      rw [resetTaskRuntime_map_task, setTaskQuantum_map_task]

theorem supFind_congr {l1 l2 : List MLFQ_TCB}
    (h : l1.map MLFQ_TCB.task_handle = l2.map MLFQ_TCB.task_handle) (t : Nat) :
    l1.findIdx? (fun e => e.task_handle == t) = l2.findIdx? (fun e => e.task_handle == t) := by
  have h1 : (l1.map MLFQ_TCB.task_handle).findIdx? (fun x => x == t) =
      (l2.map MLFQ_TCB.task_handle).findIdx? (fun x => x == t) := by rw [h]
  simpa [List.findIdx?_map, Function.comp] using h1

theorem getD_eq_default {α : Type} {l : List α} {i : Nat} (d : α) (h : l.length ≤ i) :
    l.getD i d = d := by
  rw [List.getD_eq_getElem?_getD, List.getElem?_eq_none h]
  rfl

theorem getQuantumForLevel_mod_ne (L : Nat) : getQuantumForLevel L % U32 ≠ 0 := by
  unfold getQuantumForLevel
  split
  · decide
  · split
    · decide
    · split
      · decide
      · decide

theorem vTaskPrioritySet_idem (p : Nat → Nat) (t a b : Nat) :
    vTaskPrioritySet (vTaskPrioritySet p t a) t b = vTaskPrioritySet p t b := by
  funext h
  unfold vTaskPrioritySet
  by_cases hh : h = t <;> simp [hh]

/-! Branch-shape lemmas for `setupTaskStats`. -/

theorem setupTaskStats_null (tbl : List TickProfilerTaskInfo) :
    setupTaskStats tbl 0 = (.invalid, tbl) := by
  unfold setupTaskStats
  rw [if_pos rfl]

theorem setupTaskStats_present {tbl : List TickProfilerTaskInfo} {t : Nat}
    (ht : t ≠ 0) (h : (findTaskIndex tbl t).isSome = true) :
    setupTaskStats tbl t = (.already_present, tbl) := by
  unfold setupTaskStats
  rw [if_neg ht, if_pos h]

theorem setupTaskStats_full {tbl : List TickProfilerTaskInfo} {t : Nat}
    (ht : t ≠ 0) (habs : findTaskIndex tbl t = none) (hfull : findEmptySlot tbl = none) :
    setupTaskStats tbl t = (.table_full, tbl) := by
  unfold setupTaskStats
  rw [if_neg ht, if_neg (by rw [habs]; simp), hfull]

theorem setupTaskStats_ok {tbl : List TickProfilerTaskInfo} {t slot : Nat}
    (ht : t ≠ 0) (habs : findTaskIndex tbl t = none) (hslot : findEmptySlot tbl = some slot) :
    setupTaskStats tbl t = (.ok, tbl.set slot ⟨t, 0, 0⟩) := by
  unfold setupTaskStats
  rw [if_neg ht, if_neg (by rw [habs]; simp), hslot]

/-! Branch-shape lemmas for `checkForDemotion` and `registerTask`. -/

theorem checkForDemotion_eq_lt {s : SysState} {i : Nat}
    (h : (s.supTable.getD i emptyTCB).task_level < MLFQ_QUEUE_LOW) :
    checkForDemotion s i =
      updateTaskPriority s (s.supTable.getD i emptyTCB).task_handle
        ((MLFQ_TO_RTOS_LEVEL_SETTER (s.supTable.getD i emptyTCB).task_level + 1) % U32) := by
  unfold checkForDemotion
  rw [if_pos h]

theorem checkForDemotion_eq_low {s : SysState} {i : Nat}
    (h : ¬((s.supTable.getD i emptyTCB).task_level < MLFQ_QUEUE_LOW)) :
    checkForDemotion s i =
      updateTaskPriority s (s.supTable.getD i emptyTCB).task_handle MLFQ_QUEUE_LOW := by
  unfold checkForDemotion
  rw [if_neg h]

theorem registerTask_noslot {s : SysState} {t now : Nat}
    (h : s.supTable.findIdx? (fun e => e.task_handle == 0) = none) :
    registerTask s t now = s := by
  unfold registerTask
  rw [h]

theorem registerTask_fail {s : SysState} {t now i : Nat}
    (hsup : s.supTable.findIdx? (fun e => e.task_handle == 0) = some i)
    (hfail : (setupTaskStats s.accTable t).1 ≠ RegResult.ok) :
    registerTask s t now = s := by
  unfold registerTask
  rcases hca : setupTaskStats s.accTable t with ⟨r, acc1⟩
  rw [hca] at hfail
  rcases r with - | - | - | -
  · exact absurd rfl hfail
  · simp only [hsup]
  · simp only [hsup]
  · simp only [hsup]

/-- The accountant slot found for a freshly inserted record is the
slot it was inserted into. -/
theorem findTaskIndex_after_insert {tbl : List TickProfilerTaskInfo} {t slot : Nat}
    (v : TickProfilerTaskInfo) (hv : v.task = t) (ht : t ≠ 0)
    (hfresh : findTaskIndex tbl t = none) (hslot : findEmptySlot tbl = some slot) :
    findTaskIndex (tbl.set slot v) t = some slot := by
  obtain ⟨hl, -, -⟩ := findIdx?_some_elim hslot emptyInfo
  unfold findTaskIndex
  rw [if_neg ht]
  apply findIdx?_eq_some_intro emptyInfo
  · simpa using hl
  · rw [getD_set_self _ _ _ _ hl]
    simp [hv]
  · intro j hj
    rw [getD_set_ne _ _ _ (Nat.ne_of_lt hj).symm]
    have hjl : j < tbl.length := Nat.lt_trans hj hl
    have hmem : tbl.getD j emptyInfo ∈ tbl := by
      rw [getD_eq_getElem _ _ _ hjl]
      exact List.getElem_mem _
    have := findTaskIndex_none_elim hfresh ht _ hmem
    simpa using this

/-- Explicit shape of a successful registration. -/
theorem registerTask_ok {s : SysState} {t now i slot : Nat}
    (hsup : s.supTable.findIdx? (fun e => e.task_handle == 0) = some i)
    (ht : t ≠ 0) (hfresh : findTaskIndex s.accTable t = none)
    (hslot : findEmptySlot s.accTable = some slot) :
    registerTask s t now =
      { s with
        supTable := s.supTable.set i ⟨t, MLFQ_QUEUE_HIGH, now % U32⟩
        accTable := s.accTable.set slot ⟨t, 0, MLFQ_TIME_SLICE_HIGH⟩
        kernelPrio := vTaskPrioritySet s.kernelPrio t
          (MLFQ_TO_RTOS_LEVEL_SETTER MLFQ_QUEUE_HIGH) } := by
  obtain ⟨hsl, -, -⟩ := findIdx?_some_elim hslot emptyInfo
  have hins := findTaskIndex_after_insert (⟨t, 0, 0⟩ : TickProfilerTaskInfo) rfl ht hfresh hslot
  have hg20 : ¬(t = 0 ∨ MLFQ_TIME_SLICE_HIGH % U32 = 0) := by
    push_neg
    exact ⟨ht, by decide⟩
  have hquantum := setTaskQuantum_ok hg20 hins
  unfold registerTask
  simp only [hsup, setupTaskStats_ok ht hfresh hslot, hquantum]
  rw [getD_set_self _ _ _ _ hsl, List.set_set]
  rfl

/-! Branch-shape lemmas for the tick hook. -/

theorem tickHook_not_found {s : SysState} {current : Nat}
    (hi : s.accTable.findIdx? (fun r => r.task == current) = none) :
    vApplicationTickHook s current = s := by
  unfold vApplicationTickHook
  by_cases hc : current = 0
  · rw [if_pos hc]
  · rw [if_neg hc, hi]

theorem tickHook_expired {s : SysState} {current i : Nat}
    (hc : current ≠ 0)
    (hi : s.accTable.findIdx? (fun r => r.task == current) = some i)
    (hcond : (s.accTable.getD i emptyInfo).quantum_ticks ≠ 0 ∧
      ((s.accTable.getD i emptyInfo).run_ticks + 1) % U32 ≥
        (s.accTable.getD i emptyInfo).quantum_ticks) :
    vApplicationTickHook s current =
      { s with
        accTable := s.accTable.set i
          { s.accTable.getD i emptyInfo with
              run_ticks := ((s.accTable.getD i emptyInfo).run_ticks + 1) % U32 }
        expiredQueue :=
          match s.expiredQueue with
          | none => none
          | some q => some (xQueueSendFromISR q current)
        notifications :=
          if s.schedulerHandle ≠ 0 then s.notifications + 1 else s.notifications } := by
  unfold vApplicationTickHook
  simp only [if_neg hc, hi]
  rw [if_pos hcond]

theorem tickHook_not_expired {s : SysState} {current i : Nat}
    (hc : current ≠ 0)
    (hi : s.accTable.findIdx? (fun r => r.task == current) = some i)
    (hcond : ¬((s.accTable.getD i emptyInfo).quantum_ticks ≠ 0 ∧
      ((s.accTable.getD i emptyInfo).run_ticks + 1) % U32 ≥
        (s.accTable.getD i emptyInfo).quantum_ticks)) :
    vApplicationTickHook s current =
      { s with
        accTable := s.accTable.set i
          { s.accTable.getD i emptyInfo with
              run_ticks := ((s.accTable.getD i emptyInfo).run_ticks + 1) % U32 } } := by
  unfold vApplicationTickHook
  simp only [if_neg hc, hi]
  rw [if_neg hcond]

theorem getD_map {α β : Type} (f : α → β) (l : List α) (i : Nat) (d : α) :
    (l.map f).getD i (f d) = f (l.getD i d) := by
  rcases Nat.lt_or_ge i l.length with h | h
  · rw [getD_eq_getElem _ _ _ h, getD_eq_getElem _ _ _ (by simpa using h), List.getElem_map]
  · rw [getD_eq_default _ h, getD_eq_default _ (by simpa using h)]

theorem getTaskRuntime_eq {tbl : List TickProfilerTaskInfo} {t j : Nat}
    (hj : findTaskIndex tbl t = some j) :
    getTaskRuntime tbl t = (tbl.getD j emptyInfo).run_ticks := by
  unfold getTaskRuntime
  rw [if_neg (findTaskIndex_some hj).1, hj]

theorem getTaskRuntime_none {tbl : List TickProfilerTaskInfo} {t : Nat}
    (hj : findTaskIndex tbl t = none) :
    getTaskRuntime tbl t = 0 := by
  unfold getTaskRuntime
  by_cases ht : t = 0
  · rw [if_pos ht]
  · rw [if_neg ht, hj]

/-- Quantum-then-reset when the argument check rejects the quantum but
the task is present: only the runtime reset happens. -/
theorem quantumReset_guard {tbl : List TickProfilerTaskInfo} {t p : Nat} (q : Nat)
    (hq : q % U32 = 0) (hp : findTaskIndex tbl t = some p) :
    (resetTaskRuntime ((setTaskQuantum tbl t q).2) t).2 =
      tbl.set p { tbl.getD p emptyInfo with run_ticks := 0 } := by
  obtain ⟨ht, -, -, -⟩ := findTaskIndex_some hp
  simp only [setTaskQuantum_guard (Or.inr hq), resetTaskRuntime_found ht hp]

/-- Overwriting one record does not change another task's runtime
reading, provided the record keeps its handle. -/
theorem getTaskRuntime_set_other {tbl : List TickProfilerTaskInfo} {g p : Nat}
    (v : TickProfilerTaskInfo) (hv : v.task = (tbl.getD p emptyInfo).task)
    (hne : (tbl.getD p emptyInfo).task ≠ g) :
    getTaskRuntime (tbl.set p v) g = getTaskRuntime tbl g := by
  have hmap := map_set_field tbl TickProfilerTaskInfo.task p v emptyInfo hv
  cases hg : findTaskIndex tbl g with
  | none =>
      rw [getTaskRuntime_none (by rw [findTaskIndex_congr hmap]; exact hg),
        getTaskRuntime_none hg]
  | some pg =>
      obtain ⟨hg0, hgl, hgtask, -⟩ := findTaskIndex_some hg
      have hpne : p ≠ pg := fun he => hne (by rw [he, hgtask])
      rw [getTaskRuntime_eq (by rw [findTaskIndex_congr hmap]; exact hg),
        getTaskRuntime_eq hg, getD_set_ne _ _ _ hpne]

/-- Quantum-then-reset leaves every other task's runtime reading
unchanged. -/
theorem getTaskRuntime_QR_other {tbl : List TickProfilerTaskInfo} {t g : Nat} (q : Nat)
    (hgt : g ≠ t) :
    getTaskRuntime ((resetTaskRuntime ((setTaskQuantum tbl t q).2) t).2) g =
      getTaskRuntime tbl g := by
  cases hp : findTaskIndex tbl t with
  | none => rw [quantumReset_none q hp]
  | some p =>
      obtain ⟨ht0, hpl, hptask, -⟩ := findTaskIndex_some hp
      have hne : (tbl.getD p emptyInfo).task ≠ g := by
        rw [hptask]
        exact fun he => hgt he.symm
      by_cases hq : q % U32 = 0
      · rw [quantumReset_guard q hq hp]
        exact getTaskRuntime_set_other _ rfl hne
      · rw [quantumReset_eq q hq hp]
        exact getTaskRuntime_set_other _ rfl hne

/-- Quantum-then-reset zeroes the task's own runtime reading. -/
theorem getTaskRuntime_QR_self {tbl : List TickProfilerTaskInfo} {t p : Nat} (q : Nat)
    (hq : q % U32 ≠ 0) (hp : findTaskIndex tbl t = some p) :
    getTaskRuntime ((resetTaskRuntime ((setTaskQuantum tbl t q).2) t).2) t = 0 := by
  rw [quantumReset_eq q hq hp]
  obtain ⟨-, hpl, -, -⟩ := findTaskIndex_some hp
  have hmap : (tbl.set p
      { tbl.getD p emptyInfo with run_ticks := 0, quantum_ticks := q % U32 }).map
      TickProfilerTaskInfo.task = tbl.map TickProfilerTaskInfo.task :=
    map_set_field _ _ _ _ emptyInfo rfl
  rw [getTaskRuntime_eq (by rw [findTaskIndex_congr hmap]; exact hp),
    getD_set_self _ _ _ _ hpl]

/-! ## Preservation of the table invariant -/

theorem Inv_of_maps_eq {s s' : SysState} (hsup : supHandles s' = supHandles s)
    (hacc : accTasks s' = accTasks s) (h : Inv s) : Inv s' := by
  obtain ⟨h1, h2, h3⟩ := h
  refine ⟨?_, ?_, ?_⟩
  · rw [hsup]
    exact h1
  · rw [hacc]
    exact h2
  · rw [hsup, hacc]
    exact h3

theorem checkForDemotion_maps (s : SysState) (i : Nat) :
    supHandles (checkForDemotion s i) = supHandles s ∧
      accTasks (checkForDemotion s i) = accTasks s := by
  by_cases h : (s.supTable.getD i emptyTCB).task_level < MLFQ_QUEUE_LOW
  · rw [checkForDemotion_eq_lt h]
    exact ⟨updateTaskPriority_supHandles _ _ _, updateTaskPriority_accTasks _ _ _⟩
  · rw [checkForDemotion_eq_low h]
    exact ⟨updateTaskPriority_supHandles _ _ _, updateTaskPriority_accTasks _ _ _⟩

theorem boostStep_maps (u : SysState) (i : Nat) :
    supHandles (boostStep u i) = supHandles u ∧ accTasks (boostStep u i) = accTasks u := by
  unfold boostStep
  split
  · exact ⟨updateTaskPriority_supHandles _ _ _, updateTaskPriority_accTasks _ _ _⟩
  · exact ⟨rfl, rfl⟩

theorem promoteStep_maps (t : Nat) (u : SysState) (i : Nat) :
    supHandles (promoteStep t u i) = supHandles u ∧
      accTasks (promoteStep t u i) = accTasks u := by
  unfold promoteStep
  split
  · split
    · exact ⟨updateTaskPriority_supHandles _ _ _, updateTaskPriority_accTasks _ _ _⟩
    · exact ⟨rfl, rfl⟩
  · exact ⟨rfl, rfl⟩

theorem foldl_maps_eq (f : SysState → Nat → SysState) (l : List Nat) (s : SysState)
    (hf : ∀ u i, supHandles (f u i) = supHandles u ∧ accTasks (f u i) = accTasks u) :
    supHandles (l.foldl f s) = supHandles s ∧ accTasks (l.foldl f s) = accTasks s := by
  induction l generalizing s with
  | nil => exact ⟨rfl, rfl⟩
  | cons a l ih =>
      rw [List.foldl_cons]
      obtain ⟨h1, h2⟩ := ih (f s a)
      obtain ⟨g1, g2⟩ := hf s a
      exact ⟨h1.trans g1, h2.trans g2⟩

theorem DistinctOcc_set {t : Nat} :
    ∀ (hs : List Nat) (i : Nat), t ∉ hs → DistinctOcc hs → DistinctOcc (hs.set i t) := by
  intro hs
  induction hs with
  | nil =>
      intro i _ h
      simpa using h
  | cons a l ih =>
      intro i ht hd
      rw [DistinctOcc, List.pairwise_cons] at hd
      obtain ⟨ha, hl⟩ := hd
      have htl : t ∉ l := fun hm => ht (List.mem_cons_of_mem _ hm)
      have hta : t ≠ a := fun he => ht (by rw [he]; exact List.mem_cons_self _ _)
      cases i with
      | zero =>
          rw [show (a :: l).set 0 t = t :: l from rfl, DistinctOcc, List.pairwise_cons]
          refine ⟨fun b hb heq => absurd (heq ▸ hb) htl, hl⟩
      | succ n =>
          rw [show (a :: l).set (n + 1) t = a :: l.set n t from rfl, DistinctOcc,
            List.pairwise_cons]
          refine ⟨?_, ih n htl hl⟩
          intro b hb
          rcases List.mem_or_eq_of_mem_set hb with hbl | rfl
          · exact ha b hbl
          · exact fun heq => absurd heq (Ne.symm hta)

theorem mem_set_of_ne {l : List Nat} {x t : Nat} {i : Nat} (hm : x ∈ l)
    (hx : l.getD i 0 ≠ x) : x ∈ l.set i t := by
  obtain ⟨n, hn, he⟩ := List.mem_iff_getElem.mp hm
  have hni : n ≠ i := by
    intro h
    subst h
    exact hx (by rw [getD_eq_getElem _ _ _ hn, he])
  refine List.mem_iff_getElem.mpr ⟨n, by simpa using hn, ?_⟩
  rw [List.getElem_set_ne (fun h => hni h.symm)]
  exact he

/-- Inserting a fresh nonzero handle into an empty slot of each column
preserves the invariant's three clauses. -/
theorem Inv_insert {s : SysState} {t i slot : Nat} (ht : t ≠ 0)
    (haccg : (accTasks s).getD slot 0 = 0) (hslotg : slot < (accTasks s).length)
    (hfresh : t ∉ accTasks s) (h : Inv s) :
    DistinctOcc ((supHandles s).set i t) ∧ DistinctOcc ((accTasks s).set slot t) ∧
      ∀ x ∈ (supHandles s).set i t, x ≠ 0 → x ∈ (accTasks s).set slot t := by
  obtain ⟨hd1, hd2, hsub⟩ := h
  have htsup : t ∉ supHandles s := fun hmem => hfresh (hsub t hmem ht)
  refine ⟨DistinctOcc_set _ i htsup hd1, DistinctOcc_set _ slot hfresh hd2, ?_⟩
  intro x hx hx0
  rcases List.mem_or_eq_of_mem_set hx with hxs | rfl
  · exact mem_set_of_ne (hsub x hxs hx0) (by rw [haccg]; exact fun hh => hx0 hh.symm)
  · exact List.mem_set _ _ hslotg _

theorem Inv_registerTask {s : SysState} (t now : Nat) (h : Inv s) :
    Inv (registerTask s t now) := by
  cases hsup : s.supTable.findIdx? (fun e => e.task_handle == 0) with
  | none =>
      rw [registerTask_noslot hsup]
      exact h
  | some i =>
      by_cases ht : t = 0
      · subst ht
        rw [registerTask_fail hsup (by rw [setupTaskStats_null]; simp)]
        exact h
      · cases hfree : findTaskIndex s.accTable t with
        | some p =>
            rw [registerTask_fail hsup
              (by rw [setupTaskStats_present ht (by rw [hfree]; rfl)]; simp)]
            exact h
        | none =>
            cases hslot : findEmptySlot s.accTable with
            | none =>
                rw [registerTask_fail hsup
                  (by rw [setupTaskStats_full ht hfree hslot]; simp)]
                exact h
            | some slot =>
                rw [registerTask_ok hsup ht hfree hslot]
                obtain ⟨hsl, hsp, -⟩ := findIdx?_some_elim hslot emptyInfo
                have hfr : t ∉ accTasks s := by
                  intro hmem
                  obtain ⟨r, hr, hrt⟩ := List.mem_map.mp hmem
                  exact findTaskIndex_none_elim hfree ht r hr hrt
                have haccg : (accTasks s).getD slot 0 = 0 := by
                  have h1 : (accTasks s).getD slot 0 = (s.accTable.getD slot emptyInfo).task :=
                    getD_map TickProfilerTaskInfo.task s.accTable slot emptyInfo
                  rw [h1]
                  simpa using hsp
                have hslotg : slot < (accTasks s).length := by
                  rw [accTasks, List.length_map]
                  exact hsl
                have e1 : supHandles { s with
                    supTable := s.supTable.set i ⟨t, MLFQ_QUEUE_HIGH, now % U32⟩
                    accTable := s.accTable.set slot ⟨t, 0, MLFQ_TIME_SLICE_HIGH⟩
                    kernelPrio := vTaskPrioritySet s.kernelPrio t
                      (MLFQ_TO_RTOS_LEVEL_SETTER MLFQ_QUEUE_HIGH) } =
                    (supHandles s).set i t := by
                  simp [supHandles, List.map_set]
                have e2 : accTasks { s with
                    supTable := s.supTable.set i ⟨t, MLFQ_QUEUE_HIGH, now % U32⟩
                    accTable := s.accTable.set slot ⟨t, 0, MLFQ_TIME_SLICE_HIGH⟩
                    kernelPrio := vTaskPrioritySet s.kernelPrio t
                      (MLFQ_TO_RTOS_LEVEL_SETTER MLFQ_QUEUE_HIGH) } =
                    (accTasks s).set slot t := by
                  simp [accTasks, List.map_set]
                unfold Inv
                rw [e1, e2]
                exact Inv_insert ht haccg hslotg hfr h

theorem Inv_applyOp (s : SysState) (op : Op) (h : Inv s) : Inv (applyOp s op) := by
  cases op with
  | register t now => exact Inv_registerTask t now h
  | setQuantum t q =>
      exact Inv_of_maps_eq (s := s) rfl (setTaskQuantum_map_task s.accTable t q) h
  | setLevel t l =>
      exact Inv_of_maps_eq (updateTaskPriority_supHandles s t l)
        (updateTaskPriority_accTasks s t l) h
  | checkDemotion i =>
      exact Inv_of_maps_eq (checkForDemotion_maps s i).1 (checkForDemotion_maps s i).2 h
  | globalBoost =>
      obtain ⟨a, b⟩ := foldl_maps_eq boostStep (List.range TICK_PROFILER_MAX_TASKS) s
        boostStep_maps
      exact Inv_of_maps_eq a b h
  | promoteInteractive t =>
      obtain ⟨a, b⟩ := foldl_maps_eq (promoteStep t) (List.range TICK_PROFILER_MAX_TASKS) s
        (promoteStep_maps t)
      exact Inv_of_maps_eq a b h
  | resetRuntime t =>
      exact Inv_of_maps_eq (s := s) rfl (resetTaskRuntime_map_task s.accTable t) h

theorem Inv_init (s0 : SysState) : Inv (initScheduler s0) := by
  have h1 : supHandles (initScheduler s0) =
      List.replicate TICK_PROFILER_MAX_TASKS 0 := rfl
  have h2 : accTasks (initScheduler s0) =
      List.replicate TICK_PROFILER_MAX_TASKS 0 := rfl
  refine ⟨?_, ?_, ?_⟩
  · rw [h1]
    decide
  · rw [h2]
    decide
  · intro x hx hx0
    rw [h1] at hx
    exact absurd (List.eq_of_mem_replicate hx) hx0

theorem Inv_reachable {s : SysState} (h : Reachable s) : Inv s := by
  induction h with
  | init s0 => exact Inv_init s0
  | step op hR ih => exact Inv_applyOp _ op ih

/-! ## Claims -/

/-- C1 (code-bug evidence): on `demoState` — a freshly initialised
system whose only occupied supervisor slot 0 holds task `7` at level
`HIGH` — `checkForDemotion 0` does not set the level to the next lower
level `MEDIUM = 1`.  The unparenthesized macro body expands
`MLFQ_TO_RTOS_LEVEL_SETTER(currentLevel + 1)` to
`(5U - currentLevel) + 1 = 6 - currentLevel`, so the slot's level
becomes `6`; the kernel priority `5U - 6` wraps to `2³² - 1 =
4294967295` instead of `priority_of(MEDIUM) = 4`, and the `LOW`
quantum `100` is installed (the `switch` default) instead of the
`MEDIUM` quantum `50`.  Likewise on `medState` a `MEDIUM` task is
moved to level `5`, not `LOW = 2`, with kernel priority `0`. -/
theorem checkForDemotion_scrambles_level :
    ((checkForDemotion demoState 0).supTable.getD 0 emptyTCB).task_level = 6 ∧
    MLFQ_QUEUE_MEDIUM = 1 ∧
    ((checkForDemotion demoState 0).accTable.getD 0 emptyInfo).quantum_ticks =
      MLFQ_TIME_SLICE_LOW ∧
    (checkForDemotion demoState 0).kernelPrio 7 = 4294967295 ∧
    ((checkForDemotion medState 0).supTable.getD 0 emptyTCB).task_level = 5 ∧
    (checkForDemotion medState 0).kernelPrio 7 = 0 ∧
    MLFQ_QUEUE_LOW = 2 := by
  decide

/-- C2: `check_for_demotion` on an occupied supervisor slot whose task
is at level `LOW` leaves the level `LOW` and the handle in place,
re-applying `LOW`: the task's accountant runtime is reset to `0` and
the `LOW` quantum `100` reloaded. -/
theorem checkForDemotion_low_stays_low (s : SysState) (i j : Nat)
    (hfirst : s.supTable.findIdx?
      (fun e => e.task_handle == (s.supTable.getD i emptyTCB).task_handle) = some i)
    (hlow : (s.supTable.getD i emptyTCB).task_level = MLFQ_QUEUE_LOW)
    (hacc : findTaskIndex s.accTable (s.supTable.getD i emptyTCB).task_handle = some j) :
    ((checkForDemotion s i).supTable.getD i emptyTCB).task_level = MLFQ_QUEUE_LOW ∧
    ((checkForDemotion s i).supTable.getD i emptyTCB).task_handle =
      (s.supTable.getD i emptyTCB).task_handle ∧
    ((checkForDemotion s i).accTable.getD j emptyInfo).run_ticks = 0 ∧
    ((checkForDemotion s i).accTable.getD j emptyInfo).quantum_ticks =
      MLFQ_TIME_SLICE_LOW := by
  obtain ⟨hil, -, -⟩ := findIdx?_some_elim hfirst emptyTCB
  obtain ⟨-, hjl, -, -⟩ := findTaskIndex_some hacc
  have hnl : ¬((s.supTable.getD i emptyTCB).task_level < MLFQ_QUEUE_LOW) := by
    rw [hlow]
    exact lt_irrefl _
  have h100 : getQuantumForLevel MLFQ_QUEUE_LOW % U32 ≠ 0 := by decide
  rw [checkForDemotion_eq_low hnl]
  simp only [updateTaskPriority_some hfirst]
  refine ⟨?_, ?_, ?_, ?_⟩
  · rw [getD_set_self _ _ _ _ hil]
  · rw [getD_set_self _ _ _ _ hil]
  · rw [quantumReset_eq _ h100 hacc, getD_set_self _ _ _ _ hjl]
  · rw [quantumReset_eq _ h100 hacc, getD_set_self _ _ _ _ hjl]
    show getQuantumForLevel MLFQ_QUEUE_LOW % U32 = MLFQ_TIME_SLICE_LOW
    decide

/-- Witness for C2 at `lowState`: slot `0` holds task `7` at `LOW`. -/
theorem checkForDemotion_low_stays_low_witness :
    (lowState.supTable.findIdx?
      (fun e => e.task_handle == (lowState.supTable.getD 0 emptyTCB).task_handle) = some 0) ∧
    (lowState.supTable.getD 0 emptyTCB).task_level = MLFQ_QUEUE_LOW ∧
    (findTaskIndex lowState.accTable (lowState.supTable.getD 0 emptyTCB).task_handle =
      some 0) ∧
    (((checkForDemotion lowState 0).supTable.getD 0 emptyTCB).task_level = MLFQ_QUEUE_LOW ∧
      ((checkForDemotion lowState 0).supTable.getD 0 emptyTCB).task_handle =
        (lowState.supTable.getD 0 emptyTCB).task_handle ∧
      ((checkForDemotion lowState 0).accTable.getD 0 emptyInfo).run_ticks = 0 ∧
      ((checkForDemotion lowState 0).accTable.getD 0 emptyInfo).quantum_ticks =
        MLFQ_TIME_SLICE_LOW) :=
  ⟨by decide, by decide, by decide,
    checkForDemotion_low_stays_low lowState 0 0 (by decide) (by decide) (by decide)⟩

/-- C5: the accountant register operation returns the `invalid` branch
for a `NULL` handle, the `already_present` branch for a registered
handle, and the `table_full` branch when every slot is occupied and the
handle is new — leaving the table unchanged in each case. -/
theorem setupTaskStats_errors (tbl : List TickProfilerTaskInfo) (t : Nat) :
    (t = 0 → setupTaskStats tbl t = (RegResult.invalid, tbl)) ∧
    (t ≠ 0 → (∃ r ∈ tbl, r.task = t) →
      setupTaskStats tbl t = (RegResult.already_present, tbl)) ∧
    (t ≠ 0 → (∀ r ∈ tbl, r.task ≠ t) → (∀ r ∈ tbl, r.task ≠ 0) →
      setupTaskStats tbl t = (RegResult.table_full, tbl)) := by
  refine ⟨?_, ?_, ?_⟩
  · intro h
    subst h
    exact setupTaskStats_null tbl
  · intro ht hex
    apply setupTaskStats_present ht
    unfold findTaskIndex
    rw [if_neg ht, List.findIdx?_isSome, List.any_eq_true]
    obtain ⟨r, hr, hrt⟩ := hex
    exact ⟨r, hr, by simpa using hrt⟩
  · intro ht habs hocc
    apply setupTaskStats_full ht (findTaskIndex_eq_none ht habs)
    unfold findEmptySlot
    rw [List.findIdx?_eq_none_iff]
    intro r hr
    simpa using hocc r hr

/-- Witness for C5: a full table rejects handle `77`; `demoState`'s
accountant table rejects the duplicate `7` and the `NULL` handle. -/
theorem setupTaskStats_errors_witness :
    setupTaskStats fullTbl 77 = (RegResult.table_full, fullTbl) ∧
    setupTaskStats demoState.accTable 7 = (RegResult.already_present, demoState.accTable) ∧
    setupTaskStats demoState.accTable 0 = (RegResult.invalid, demoState.accTable) :=
  ⟨(setupTaskStats_errors fullTbl 77).2.2 (by decide) (by decide) (by decide),
    (setupTaskStats_errors demoState.accTable 7).2.1 (by decide) (by decide),
    (setupTaskStats_errors demoState.accTable 0).1 rfl⟩

/-- C7: `set_quantum` rejects `q = 0` and `NULL` handles, fails with
`not_found` for an unregistered task — leaving the table unchanged in
every failure case — and succeeds, storing `q` in the task's record,
exactly when the task is registered and `q ≥ 1`. -/
theorem setTaskQuantum_spec (tbl : List TickProfilerTaskInfo) (t q : Nat) (hq : q < U32) :
    (q = 0 ∨ t = 0 → setTaskQuantum tbl t q = (QuantumResult.invalid, tbl)) ∧
    (t ≠ 0 → q ≠ 0 → findTaskIndex tbl t = none →
      setTaskQuantum tbl t q = (QuantumResult.not_found, tbl)) ∧
    (∀ j, q ≠ 0 → findTaskIndex tbl t = some j →
      setTaskQuantum tbl t q =
        (QuantumResult.ok, tbl.set j { tbl.getD j emptyInfo with quantum_ticks := q })) ∧
    ((setTaskQuantum tbl t q).1 = QuantumResult.ok ↔
      q ≠ 0 ∧ (findTaskIndex tbl t).isSome = true) := by
  have hmod : q % U32 = q := Nat.mod_eq_of_lt hq
  refine ⟨?_, ?_, ?_, ?_⟩
  · intro h
    apply setTaskQuantum_guard
    rcases h with h | h
    · right
      rw [hmod, h]
    · left
      exact h
  · intro ht hq0 hn
    exact setTaskQuantum_notfound (by push_neg; rw [hmod]; exact ⟨ht, hq0⟩) hn
  · intro j hq0 hj
    rw [setTaskQuantum_ok
      (by push_neg; rw [hmod]; exact ⟨(findTaskIndex_some hj).1, hq0⟩) hj, hmod]
  · constructor
    · intro hok
      by_cases hg : t = 0 ∨ q % U32 = 0
      · rw [setTaskQuantum_guard hg] at hok
        simp at hok
      · cases hfind : findTaskIndex tbl t with
        | none =>
            rw [setTaskQuantum_notfound hg hfind] at hok
            simp at hok
        | some j =>
            push_neg at hg
            rw [hmod] at hg
            exact ⟨hg.2, rfl⟩
    · rintro ⟨hq0, hsome⟩
      cases hfind : findTaskIndex tbl t with
      | none =>
          rw [hfind] at hsome
          simp at hsome
      | some j =>
          rw [setTaskQuantum_ok
            (by push_neg; rw [hmod]; exact ⟨(findTaskIndex_some hfind).1, hq0⟩) hfind]

/-- Witness for C7 on `demoState`'s accountant table (task `7` at
slot `0`): rejection of `q = 0`, `not_found` for the stale handle `9`,
and successful storing of `q = 5`. -/
theorem setTaskQuantum_spec_witness :
    setTaskQuantum demoState.accTable 7 0 = (QuantumResult.invalid, demoState.accTable) ∧
    setTaskQuantum demoState.accTable 9 5 = (QuantumResult.not_found, demoState.accTable) ∧
    setTaskQuantum demoState.accTable 7 5 =
      (QuantumResult.ok, demoState.accTable.set 0
        { demoState.accTable.getD 0 emptyInfo with quantum_ticks := 5 }) :=
  ⟨(setTaskQuantum_spec demoState.accTable 7 0 (by decide)).1 (Or.inl rfl),
    (setTaskQuantum_spec demoState.accTable 9 5 (by decide)).2.1
      (by decide) (by decide) (by decide),
    (setTaskQuantum_spec demoState.accTable 7 5 (by decide)).2.2.1 0
      (by decide) (by decide)⟩

/-- C10: draining a handle that is absent from the supervisor table —
and, in particular, applying `set_level` to such a handle — leaves the
whole state (both tables included) unchanged; no error is raised. -/
theorem drain_unregistered_noop (s : SysState) (h : Nat)
    (habs : ∀ e ∈ s.supTable, e.task_handle ≠ h) :
    drainExpiredHandle s h = s ∧ ∀ L, updateTaskPriority s h L = s := by
  have hnone : s.supTable.findIdx? (fun e => e.task_handle == h) = none := by
    rw [List.findIdx?_eq_none_iff]
    intro e he
    simpa using habs e he
  refine ⟨?_, fun L => updateTaskPriority_none hnone⟩
  unfold drainExpiredHandle
  rw [hnone]

/-- Witness for C10: the stale handle `99` was never registered in
`demoState`; draining it is a no-op. -/
theorem drain_unregistered_noop_witness :
    (∀ e ∈ demoState.supTable, e.task_handle ≠ 99) ∧
    (drainExpiredHandle demoState 99 = demoState ∧
      ∀ L, updateTaskPriority demoState 99 L = demoState) :=
  ⟨by decide, drain_unregistered_noop demoState 99 (by decide)⟩

/-- C3: on a tick attributed to a registered running task, the hook
adds exactly one to that task's `run_ticks` (mod 2³²) and rewrites no
other field of the table — in particular it never resets the counter —
and, exactly when `quantum_ticks` is nonzero and the incremented
counter has reached it, it enqueues the handle on the expiry channel
(best-effort `xQueueSendFromISR`) and notifies the supervisor. -/
theorem tick_hook_spec (s : SysState) (current i : Nat) (q : List Nat)
    (hc : current ≠ 0)
    (hi : s.accTable.findIdx? (fun r => r.task == current) = some i)
    (hqu : s.expiredQueue = some q)
    (hsch : s.schedulerHandle ≠ 0) :
    (vApplicationTickHook s current).accTable =
      s.accTable.set i
        { s.accTable.getD i emptyInfo with
            run_ticks := ((s.accTable.getD i emptyInfo).run_ticks + 1) % U32 } ∧
    (((s.accTable.getD i emptyInfo).quantum_ticks ≠ 0 ∧
        ((s.accTable.getD i emptyInfo).run_ticks + 1) % U32 ≥
          (s.accTable.getD i emptyInfo).quantum_ticks) →
      (vApplicationTickHook s current).expiredQueue = some (xQueueSendFromISR q current) ∧
        (vApplicationTickHook s current).notifications = s.notifications + 1) ∧
    (¬((s.accTable.getD i emptyInfo).quantum_ticks ≠ 0 ∧
        ((s.accTable.getD i emptyInfo).run_ticks + 1) % U32 ≥
          (s.accTable.getD i emptyInfo).quantum_ticks) →
      (vApplicationTickHook s current).expiredQueue = s.expiredQueue ∧
        (vApplicationTickHook s current).notifications = s.notifications) := by
  by_cases hcond : (s.accTable.getD i emptyInfo).quantum_ticks ≠ 0 ∧
      ((s.accTable.getD i emptyInfo).run_ticks + 1) % U32 ≥
        (s.accTable.getD i emptyInfo).quantum_ticks
  · have hE := tickHook_expired hc hi hcond
    refine ⟨?_, ?_, fun hn => absurd hcond hn⟩
    · rw [hE]
    · intro hcc
      rw [hE]
      refine ⟨?_, ?_⟩
      · dsimp only
        rw [hqu]
      · dsimp only
        rw [if_pos hsch]
  · have hNE := tickHook_not_expired hc hi hcond
    refine ⟨?_, fun hcc => absurd hcc hcond, ?_⟩
    · rw [hNE]
    · intro hn
      rw [hNE]
      exact ⟨rfl, rfl⟩

/-- Witness for C3 at `expireState`: task `7` has run 19 of its 20
ticks; the next tick increments to 20, enqueues `7` and notifies. -/
theorem tick_hook_spec_witness :
    (7 ≠ 0 ∧
      expireState.accTable.findIdx? (fun r => r.task == 7) = some 0 ∧
      expireState.expiredQueue = some [] ∧
      expireState.schedulerHandle ≠ 0) ∧
    ((vApplicationTickHook expireState 7).accTable =
      expireState.accTable.set 0
        { expireState.accTable.getD 0 emptyInfo with
            run_ticks := ((expireState.accTable.getD 0 emptyInfo).run_ticks + 1) % U32 } ∧
    (((expireState.accTable.getD 0 emptyInfo).quantum_ticks ≠ 0 ∧
        ((expireState.accTable.getD 0 emptyInfo).run_ticks + 1) % U32 ≥
          (expireState.accTable.getD 0 emptyInfo).quantum_ticks) →
      (vApplicationTickHook expireState 7).expiredQueue =
          some (xQueueSendFromISR [] 7) ∧
        (vApplicationTickHook expireState 7).notifications =
          expireState.notifications + 1) ∧
    (¬((expireState.accTable.getD 0 emptyInfo).quantum_ticks ≠ 0 ∧
        ((expireState.accTable.getD 0 emptyInfo).run_ticks + 1) % U32 ≥
          (expireState.accTable.getD 0 emptyInfo).quantum_ticks) →
      (vApplicationTickHook expireState 7).expiredQueue = expireState.expiredQueue ∧
        (vApplicationTickHook expireState 7).notifications =
          expireState.notifications)) :=
  ⟨⟨by decide, by decide, by decide, by decide⟩,
    tick_hook_spec expireState 7 0 [] (by decide) (by decide) (by decide) (by decide)⟩

/-- C6: registering a fresh nonzero task `t` at tick `T` into a system
with a free supervisor slot `i` (and a free accountant slot) and then
snapshotting slot `i` reports `level = HIGH`, `arrival_tick = T`,
`run_ticks = 0` and `quantum_ticks = quantum_of(HIGH) = 20`. -/
theorem register_then_snapshot (s : SysState) (t T i slot : Nat)
    (ht : t ≠ 0) (hT : T < U32)
    (hlen : s.supTable.length = TICK_PROFILER_MAX_TASKS)
    (hsup : s.supTable.findIdx? (fun e => e.task_handle == 0) = some i)
    (hfresh : findTaskIndex s.accTable t = none)
    (hslot : findEmptySlot s.accTable = some slot) :
    schedulerGetTaskStats (registerTask s t T) i =
      some ⟨t, 0, MLFQ_TIME_SLICE_HIGH, MLFQ_QUEUE_HIGH, T⟩ := by
  obtain ⟨hil, -, -⟩ := findIdx?_some_elim hsup emptyTCB
  obtain ⟨hsl, -, -⟩ := findIdx?_some_elim hslot emptyInfo
  have hi16 : i < TICK_PROFILER_MAX_TASKS := hlen ▸ hil
  have hTm : T % U32 = T := Nat.mod_eq_of_lt hT
  have hins := findTaskIndex_after_insert
    (⟨t, 0, MLFQ_TIME_SLICE_HIGH⟩ : TickProfilerTaskInfo) rfl ht hfresh hslot
  rw [registerTask_ok hsup ht hfresh hslot]
  unfold schedulerGetTaskStats
  dsimp only
  rw [getD_set_self _ _ _ _ hil]
  rw [if_neg (by push_neg; exact ⟨hi16, ht⟩)]
  rw [getTaskRuntime_eq hins, getD_set_self _ _ _ _ hsl, hTm]
  rfl

/-- Witness for C6: register task `7` at tick `42` into the freshly
initialised system and snapshot its slot `0`. -/
theorem register_then_snapshot_witness :
    ((7 : Nat) ≠ 0 ∧ (42 : Nat) < U32 ∧
      (initScheduler st0).supTable.length = TICK_PROFILER_MAX_TASKS ∧
      (initScheduler st0).supTable.findIdx? (fun e => e.task_handle == 0) = some 0 ∧
      findTaskIndex (initScheduler st0).accTable 7 = none ∧
      findEmptySlot (initScheduler st0).accTable = some 0) ∧
    schedulerGetTaskStats (registerTask (initScheduler st0) 7 42) 0 =
      some ⟨7, 0, MLFQ_TIME_SLICE_HIGH, MLFQ_QUEUE_HIGH, 42⟩ :=
  ⟨⟨by decide, by decide, by decide, by decide, by decide, by decide⟩,
    register_then_snapshot (initScheduler st0) 7 42 0 0
      (by decide) (by decide) (by decide) (by decide) (by decide) (by decide)⟩

/-- Quantum-then-reset is idempotent on the accountant table. -/
theorem quantumReset_idem (tbl : List TickProfilerTaskInfo) (t q : Nat) :
    (resetTaskRuntime ((setTaskQuantum
        ((resetTaskRuntime ((setTaskQuantum tbl t q).2) t).2) t q).2) t).2 =
      (resetTaskRuntime ((setTaskQuantum tbl t q).2) t).2 := by
  cases hp : findTaskIndex tbl t with
  | none => rw [quantumReset_none q hp, quantumReset_none q hp]
  | some p =>
      obtain ⟨ht, hpl, hptask, -⟩ := findTaskIndex_some hp
      by_cases hq : q % U32 = 0
      · rw [quantumReset_guard q hq hp]
        have hp2 : findTaskIndex
            (tbl.set p { tbl.getD p emptyInfo with run_ticks := 0 }) t = some p := by
          rw [findTaskIndex_congr (map_set_field tbl TickProfilerTaskInfo.task p
            { tbl.getD p emptyInfo with run_ticks := 0 } emptyInfo rfl)]
          exact hp
        rw [quantumReset_guard q hq hp2, getD_set_self _ _ _ _ hpl, List.set_set]
      · rw [quantumReset_eq q hq hp]
        have hp2 : findTaskIndex (tbl.set p
            { tbl.getD p emptyInfo with run_ticks := 0, quantum_ticks := q % U32 }) t =
            some p := by
          rw [findTaskIndex_congr (map_set_field tbl TickProfilerTaskInfo.task p
            { tbl.getD p emptyInfo with run_ticks := 0, quantum_ticks := q % U32 }
            emptyInfo rfl)]
          exact hp
        rw [quantumReset_eq q hq hp2, getD_set_self _ _ _ _ hpl, List.set_set]

/-- C9: applying `set_level` twice in sequence with the same task and
level yields exactly the same state as applying it once: the second
application rewrites every field with the value it already has, its
only extra effect being a re-zeroing of the already-zero `run_ticks`. -/
theorem updateTaskPriority_idempotent (s : SysState) (t L : Nat)
    (hreg : ∃ e ∈ s.supTable, e.task_handle = t) :
    updateTaskPriority (updateTaskPriority s t L) t L = updateTaskPriority s t L := by
  obtain ⟨idx, hfind⟩ : ∃ idx,
      s.supTable.findIdx? (fun e => e.task_handle == t) = some idx := by
    have hs : (s.supTable.findIdx? (fun e => e.task_handle == t)).isSome = true := by
      rw [List.findIdx?_isSome, List.any_eq_true]
      obtain ⟨e, he, het⟩ := hreg
      exact ⟨e, he, by simpa using het⟩
    exact Option.isSome_iff_exists.mp hs
  obtain ⟨hil, -, -⟩ := findIdx?_some_elim hfind emptyTCB
  have h1 := updateTaskPriority_some (L := L) hfind
  have hfind2 : (updateTaskPriority s t L).supTable.findIdx?
      (fun e => e.task_handle == t) = some idx := by
    rw [supFind_congr (updateTaskPriority_supHandles s t L) t]
    exact hfind
  have h2 := updateTaskPriority_some (L := L) hfind2
  rw [h2, h1]
  refine SysState.ext ?_ ?_ ?_ ?_ ?_ ?_ ?_
  · dsimp only
    rw [getD_set_self _ _ _ _ hil, List.set_set]
  · dsimp only
    exact quantumReset_idem s.accTable t (getQuantumForLevel L)
  · rfl
  · rfl
  · dsimp only
    exact vTaskPrioritySet_idem s.kernelPrio t _ _
  · rfl
  · rfl

/-- Witness for C9 at `demoState` with task `7` and level `MEDIUM`. -/
theorem updateTaskPriority_idempotent_witness :
    (∃ e ∈ demoState.supTable, e.task_handle = 7) ∧
    updateTaskPriority (updateTaskPriority demoState 7 MLFQ_QUEUE_MEDIUM) 7
        MLFQ_QUEUE_MEDIUM =
      updateTaskPriority demoState 7 MLFQ_QUEUE_MEDIUM :=
  ⟨by decide, updateTaskPriority_idempotent demoState 7 MLFQ_QUEUE_MEDIUM (by decide)⟩

/-! ## The global boost (C8) -/

theorem occupied_lt_length {l : List MLFQ_TCB} {K : Nat}
    (h : (l.getD K emptyTCB).task_handle ≠ 0) : K < l.length := by
  by_contra hc
  push_neg at hc
  rw [getD_eq_default _ hc] at h
  exact h rfl

/-- In a duplicate-free table an occupied slot is the first slot found
for its own handle. -/
theorem findIdx_first_of_distinct {l : List MLFQ_TCB} {K : Nat}
    (hdl : DistinctOcc (l.map MLFQ_TCB.task_handle))
    (hK : K < l.length) (h0 : (l.getD K emptyTCB).task_handle ≠ 0) :
    l.findIdx? (fun e => e.task_handle == (l.getD K emptyTCB).task_handle) = some K := by
  apply findIdx?_eq_some_intro emptyTCB hK
  · simp
  · intro j hj
    have hjl : j < l.length := Nat.lt_trans hj hK
    have hpw := (List.pairwise_iff_getElem.mp hdl) j K (by simpa using hjl)
      (by simpa using hK) hj
    rw [List.getElem_map, List.getElem_map] at hpw
    have h0e : l[K].task_handle ≠ 0 := by
      rwa [getD_eq_getElem _ _ _ hK] at h0
    have hne : l[j].task_handle ≠ l[K].task_handle := by
      intro he
      exact h0e (he ▸ hpw he)
    show ((l.getD j emptyTCB).task_handle == (l.getD K emptyTCB).task_handle) = false
    rw [getD_eq_getElem _ _ _ hjl, getD_eq_getElem _ _ _ hK]
    simpa using hne

/-- Two distinct occupied slots of a duplicate-free table hold
different handles. -/
theorem distinct_handles_ne {l : List MLFQ_TCB} {j K : Nat}
    (hdl : DistinctOcc (l.map MLFQ_TCB.task_handle)) (hjK : j ≠ K)
    (hjl : j < l.length) (hKl : K < l.length)
    (hj0 : (l.getD j emptyTCB).task_handle ≠ 0) :
    (l.getD j emptyTCB).task_handle ≠ (l.getD K emptyTCB).task_handle := by
  have hj0e : l[j].task_handle ≠ 0 := by
    rwa [getD_eq_getElem _ _ _ hjl] at hj0
  rw [getD_eq_getElem _ _ _ hjl, getD_eq_getElem _ _ _ hKl]
  rcases Nat.lt_or_ge j K with hlt | hge
  · have hpw := (List.pairwise_iff_getElem.mp hdl) j K (by simpa using hjl)
      (by simpa using hKl) hlt
    rw [List.getElem_map, List.getElem_map] at hpw
    exact fun he => hj0e (hpw he)
  · have hKj : K < j := Nat.lt_of_le_of_ne hge (Ne.symm hjK)
    have hpw := (List.pairwise_iff_getElem.mp hdl) K j (by simpa using hKl)
      (by simpa using hjl) hKj
    rw [List.getElem_map, List.getElem_map] at hpw
    exact fun he => hj0e (he.trans (hpw he.symm))

theorem findTaskIndex_isSome_of_mem {tbl : List TickProfilerTaskInfo} {x : Nat}
    (hx0 : x ≠ 0) (hx : x ∈ tbl.map TickProfilerTaskInfo.task) :
    ∃ p, findTaskIndex tbl x = some p := by
  have hs : (findTaskIndex tbl x).isSome = true := by
    unfold findTaskIndex
    rw [if_neg hx0, List.findIdx?_isSome, List.any_eq_true]
    obtain ⟨r, hr, hrt⟩ := List.mem_map.mp hx
    exact ⟨r, hr, by simpa using hrt⟩
  exact Option.isSome_iff_exists.mp hs

theorem boostStep_inv {s u : SysState} {K : Nat}
    (hd : DistinctOcc (supHandles s))
    (hsub : ∀ x ∈ supHandles s, x ≠ 0 → x ∈ accTasks s)
    (hP : BoostInv s u K) : BoostInv s (boostStep u K) (K + 1) := by
  obtain ⟨hlen, hsupm, haccm, huntouched, hempty, hdone⟩ := hP
  have huK : u.supTable.getD K emptyTCB = s.supTable.getD K emptyTCB :=
    huntouched K (le_refl K)
  unfold boostStep
  by_cases hK : (u.supTable.getD K emptyTCB).task_handle ≠ 0
  · rw [if_pos hK]
    have hKl : K < u.supTable.length := occupied_lt_length hK
    have hKs : K < s.supTable.length := hlen ▸ hKl
    have hdl : DistinctOcc (u.supTable.map MLFQ_TCB.task_handle) := by
      rw [show u.supTable.map MLFQ_TCB.task_handle = supHandles u from rfl, hsupm]
      exact hd
    have hfirst := findIdx_first_of_distinct hdl hKl hK
    have h1 := updateTaskPriority_some (L := MLFQ_QUEUE_HIGH) hfirst
    rw [h1]
    have hmemsup : (u.supTable.getD K emptyTCB).task_handle ∈ supHandles s := by
      rw [← hsupm]
      refine List.mem_iff_getElem.mpr ⟨K, by simpa [supHandles] using hKl, ?_⟩
      simp only [supHandles, List.getElem_map]
      rw [getD_eq_getElem _ _ _ hKl]
    have hmemacc : (u.supTable.getD K emptyTCB).task_handle ∈ accTasks u := by
      rw [haccm]
      exact hsub _ hmemsup hK
    obtain ⟨p, hp⟩ := findTaskIndex_isSome_of_mem hK hmemacc
    refine ⟨?_, ?_, ?_, ?_, ?_, ?_⟩
    · dsimp only
      rw [List.length_set]
      exact hlen
    · exact (map_set_field u.supTable MLFQ_TCB.task_handle K
        { u.supTable.getD K emptyTCB with task_level := MLFQ_QUEUE_HIGH }
        emptyTCB rfl).trans hsupm
    · show ((resetTaskRuntime ((setTaskQuantum u.accTable
          (u.supTable.getD K emptyTCB).task_handle
          (getQuantumForLevel MLFQ_QUEUE_HIGH)).2)
          (u.supTable.getD K emptyTCB).task_handle).2).map TickProfilerTaskInfo.task =
        accTasks s
      rw [resetTaskRuntime_map_task, setTaskQuantum_map_task]
      exact haccm
    · intro j hj
      dsimp only
      rw [getD_set_ne _ _ _ (by omega)]
      exact huntouched j (by omega)
    · intro j hocc0
      have hjK : j ≠ K := by
        intro he
        subst he
        rw [huK] at hK
        exact hK hocc0
      dsimp only
      rw [getD_set_ne _ _ _ (fun he => hjK he.symm)]
      exact hempty j hocc0
    · intro j hj hocc
      rcases Nat.lt_succ_iff_lt_or_eq.mp hj with hlt | rfl
      · obtain ⟨hh, hl0, hr0⟩ := hdone j hlt hocc
        have hjK : j ≠ K := Nat.ne_of_lt hlt
        have hjs : j < s.supTable.length := occupied_lt_length hocc
        have hgne : (s.supTable.getD j emptyTCB).task_handle ≠
            (u.supTable.getD K emptyTCB).task_handle := by
          rw [huK]
          exact distinct_handles_ne hd hjK hjs hKs hocc
        refine ⟨?_, ?_, ?_⟩
        · dsimp only
          rw [getD_set_ne _ _ _ (fun he => hjK he.symm)]
          exact hh
        · dsimp only
          rw [getD_set_ne _ _ _ (fun he => hjK he.symm)]
          exact hl0
        · dsimp only
          rw [getTaskRuntime_QR_other _ hgne]
          exact hr0
      · refine ⟨?_, ?_, ?_⟩
        · dsimp only
          rw [getD_set_self _ _ _ _ hKl]
          show (u.supTable.getD j emptyTCB).task_handle =
            (s.supTable.getD j emptyTCB).task_handle
          rw [huK]
        · dsimp only
          rw [getD_set_self _ _ _ _ hKl]
        · dsimp only
          rw [← huK]
          exact getTaskRuntime_QR_self _ (by decide) hp
  · rw [if_neg hK]
    push_neg at hK
    refine ⟨hlen, hsupm, haccm, fun j hj => huntouched j (by omega), hempty, ?_⟩
    intro j hj hocc
    rcases Nat.lt_succ_iff_lt_or_eq.mp hj with hlt | rfl
    · exact hdone j hlt hocc
    · rw [huK] at hK
      exact absurd hK hocc

theorem boost_fold_inv (s : SysState)
    (hd : DistinctOcc (supHandles s))
    (hsub : ∀ x ∈ supHandles s, x ≠ 0 → x ∈ accTasks s) :
    ∀ K : Nat, BoostInv s ((List.range K).foldl boostStep s) K := by
  intro K
  induction K with
  | zero =>
      exact ⟨rfl, rfl, rfl, fun j _ => rfl, fun j _ => rfl,
        fun j hj => absurd hj (by omega)⟩
  | succ K ih =>
      rw [List.range_succ, List.foldl_append, List.foldl_cons, List.foldl_nil]
      exact boostStep_inv hd hsub ih

/-- C8: immediately after `performGlobalBoost`, every occupied
supervisor slot keeps its handle, holds level `HIGH`, and its task's
accountant runtime reads `0`; slots whose handle is `NULL` are left
exactly as they were. -/
theorem performGlobalBoost_post (s : SysState)
    (hlen : s.supTable.length = TICK_PROFILER_MAX_TASKS)
    (hd : DistinctOcc (supHandles s))
    (hsub : ∀ x ∈ supHandles s, x ≠ 0 → x ∈ accTasks s) :
    (∀ j, (s.supTable.getD j emptyTCB).task_handle ≠ 0 →
      ((performGlobalBoost s).supTable.getD j emptyTCB).task_handle =
          (s.supTable.getD j emptyTCB).task_handle ∧
        ((performGlobalBoost s).supTable.getD j emptyTCB).task_level = MLFQ_QUEUE_HIGH ∧
        getTaskRuntime (performGlobalBoost s).accTable
          (s.supTable.getD j emptyTCB).task_handle = 0) ∧
    (∀ j, (s.supTable.getD j emptyTCB).task_handle = 0 →
      (performGlobalBoost s).supTable.getD j emptyTCB =
        s.supTable.getD j emptyTCB) := by
  have hInv := boost_fold_inv s hd hsub TICK_PROFILER_MAX_TASKS
  obtain ⟨-, -, -, -, hempty, hdone⟩ := hInv
  refine ⟨?_, hempty⟩
  intro j hocc
  have hjs : j < s.supTable.length := occupied_lt_length hocc
  exact hdone j (by rw [hlen] at hjs; exact hjs) hocc

/-- Witness for C8 at `demoState` (slot 0 occupied by task `7`,
slot 1 empty). -/
theorem performGlobalBoost_post_witness :
    (demoState.supTable.length = TICK_PROFILER_MAX_TASKS ∧
      DistinctOcc (supHandles demoState) ∧
      ∀ x ∈ supHandles demoState, x ≠ 0 → x ∈ accTasks demoState) ∧
    ((∀ j, (demoState.supTable.getD j emptyTCB).task_handle ≠ 0 →
      ((performGlobalBoost demoState).supTable.getD j emptyTCB).task_handle =
          (demoState.supTable.getD j emptyTCB).task_handle ∧
        ((performGlobalBoost demoState).supTable.getD j emptyTCB).task_level =
          MLFQ_QUEUE_HIGH ∧
        getTaskRuntime (performGlobalBoost demoState).accTable
          (demoState.supTable.getD j emptyTCB).task_handle = 0) ∧
    (∀ j, (demoState.supTable.getD j emptyTCB).task_handle = 0 →
      (performGlobalBoost demoState).supTable.getD j emptyTCB =
        demoState.supTable.getD j emptyTCB)) :=
  ⟨⟨by decide, by decide, by decide⟩,
    performGlobalBoost_post demoState (by decide) (by decide) (by decide)⟩

/-- C4: in every state reachable from initialisation by the
task-context operations, no two occupied supervisor slots share a
handle, and no two occupied accountant slots share a handle. -/
theorem reachable_tables_distinct (s : SysState) (h : Reachable s) :
    DistinctOcc (supHandles s) ∧ DistinctOcc (accTasks s) :=
  ⟨(Inv_reachable h).1, (Inv_reachable h).2.1⟩

/-- Witness for C4: the state reached by initialising, registering
task `7`, and demoting it once. -/
theorem reachable_tables_distinct_witness :
    DistinctOcc (supHandles (checkForDemotion demoState 0)) ∧
    DistinctOcc (accTasks (checkForDemotion demoState 0)) :=
  reachable_tables_distinct (checkForDemotion demoState 0)
    (Reachable.step (Op.checkDemotion 0)
      (Reachable.step (Op.register 7 42) (Reachable.init st0)))

end MLFQ
